import Mathlib

/-!
Shallow embedding of the ProductPal client core (src/app/page.tsx):
the agent-response normalization pipeline (`parseAgentResponse`) and the
conversation/message flow (`sendMessage`, `retryLastMessage`), together
with theorems settling the specification claims about them.
-/

/-- A JSON-like runtime value as manipulated by the loosely typed
TypeScript code. `null` stands for JS `null`; a missing property
(`undefined`) is represented by `Option.none` at access sites. -/
inductive JVal where
  | null
  | bool (b : Bool)
  | num (n : Int)
  | str (s : String)
  | arr (elems : List JVal)
  | obj (fields : List (String × JVal))

/-- JS property access `v.k` / `v?.k`: an own property of an object, and
`none` (undefined) for every non-object value or absent key. -/
def jsGet : JVal → String → Option JVal
  | .obj fields, k => fields.lookup k
  | _, _ => none

/-- JS truthiness of a value. -/
def jvTruthy : JVal → Bool
  | .null => false
  | .bool b => b
  | .num n => n != 0
  | .str s => s != ""
  | .arr _ => true
  | .obj _ => true

/-- JS `typeof v === 'object'` (true for objects, arrays and `null`). -/
def JVal.isObjType : JVal → Bool
  | .null => true
  | .arr _ => true
  | .obj _ => true
  | _ => false

/-- JS `Array.isArray v`. -/
def JVal.isArr : JVal → Bool
  | .arr _ => true
  | _ => false

/-- JS `typeof v === 'string'`. -/
def JVal.isStr : JVal → Bool
  | .str _ => true
  | _ => false

/-- JS `a || b` on values (first operand when truthy, else the second). -/
def jsOr (a b : JVal) : JVal :=
  if jvTruthy a then a else b

/-- Property access used inside a `||` chain: a missing property is the
falsy `undefined`, represented here by `JVal.null`. -/
def jsGetD (v : JVal) (k : String) : JVal :=
  (jsGet v k).getD .null

/-- The `response` object of the gateway reply, as accessed by
`parseAgentResponse` (`response.result`, `response.message`). The
`AIAgentResponse` type itself lives in the repository's `@/lib/aiAgent`
module, outside the provided sources; its shape is taken from the
fields `parseAgentResponse` reads and from the spec's gateway contract. -/
structure AgentResponsePayload where
  result : Option JVal
  message : Option String

/-- The gateway reply record (`result` argument of `parseAgentResponse`):
`success`, `response`, `error`, `raw_response` are the fields the
normalizer reads. -/
structure AIAgentResponse where
  success : Bool
  response : Option AgentResponsePayload
  error : Option String
  raw_response : Option String

/-- The normalized triple returned by `parseAgentResponse`. `text` is a
`JVal` because the dynamically typed source can in corner cases store a
non-string value in its `text` variable; on every path exercised by the
spec it is a string. -/
structure ParsedReply where
  text : JVal
  products : List JVal
  comparison : Option JVal

/-- The fixed error sentence of the guard branch (page.tsx line 156). -/
def errDefault : String := "Sorry, I encountered an error. Please try again."

/-- Final fallback sentence (page.tsx line 234). -/
def fallbackSentence : String :=
  "I received your message but couldn\x27t format a response. Please try again."

/-- Fixed content of the synthetic error message appended when the
gateway call rejects (page.tsx line 751). -/
def gatewayErrorText : String := "Something went wrong. Please try again."

/-- Text of the guard branch: `result?.error || 'Sorry, ...'`
(page.tsx line 156). -/
def guardText (e : Option String) : String :=
  match e with
  | some s => if s = "" then errDefault else s
  | none => errDefault

/-- Lines 160-174: derive the initial text and the candidate object from
`response.result`. An object (non-array) is used directly; a string is
fed to `JSON.parse` (modelled by the `jparse` parameter, `none` meaning
the parse threw); a string that fails to parse becomes the text itself. -/
def primaryParse (jparse : String → Option JVal) (rp : AgentResponsePayload) :
    JVal × Option JVal :=
  match rp.result with
  | none => (.str "", none)
  | some raw =>
    if jvTruthy raw && raw.isObjType && !raw.isArr then (.str "", some raw)
    else
      match raw with
      | .str s =>
        match jparse s with
        | some p => (.str "", some p)
        | none => (.str s, none)
      | _ => (.str "", none)

/-- Line 179-183 helper: `typeof parsed.k === 'string' ? parsed.k : ''`. -/
def strOrEmpty : Option JVal → JVal
  | some (.str s) => .str s
  | _ => .str ""

/-- Lines 179-183: probe the keys `response`, `text`, `message`,
`answer`, `content` in order; each step only fires when the text so far
is falsy, and only accepts string values. -/
def extractText (p : JVal) : JVal :=
  let t1 := strOrEmpty (jsGet p "response")
  let t2 := if jvTruthy t1 then t1 else strOrEmpty (jsGet p "text")
  let t3 := if jvTruthy t2 then t2 else strOrEmpty (jsGet p "message")
  let t4 := if jvTruthy t3 then t3 else strOrEmpty (jsGet p "answer")
  if jvTruthy t4 then t4 else strOrEmpty (jsGet p "content")

/-- Line 186 predicate: `p && typeof p.name === 'string'`. -/
def productKeep (p : JVal) : Bool :=
  jvTruthy p &&
    (match jsGet p "name" with
     | some (.str _) => true
     | _ => false)

/-- Lines 185-187: keep `parsed.products` entries passing `productKeep`
when `parsed.products` is an array, else the empty list. -/
def extractProducts (p : JVal) : List JVal :=
  match jsGet p "products" with
  | some (.arr l) => l.filter productKeep
  | _ => []

/-- Whether `c.attributes` is an array (`Array.isArray (c?.attributes)`). -/
def attrsIsArr (c : JVal) : Bool :=
  match jsGet c "attributes" with
  | some (.arr _) => true
  | _ => false

/-- Lines 188-194: accept `parsed.comparison` only when it is truthy, of
object type, not an array, and its `attributes` field is an array. -/
def extractComparison (p : JVal) : Option JVal :=
  match jsGet p "comparison" with
  | some c =>
    if jvTruthy c && c.isObjType && !c.isArr && attrsIsArr c then some c else none
  | none => none

/-- Lines 210-222: handle `rawParsed.response.result` (`innerResult`).
Note that unlike lines 179-183 the text pick at line 215 uses plain `||`
(truthiness, not a string-type check), and the comparison check at line
219 has no `!Array.isArray` conjunct. -/
def innerResultExtract (ir? : Option JVal) (t : JVal) (ps : List JVal)
    (cmp : Option JVal) : JVal × List JVal × Option JVal :=
  match ir? with
  | none => (t, ps, cmp)
  | some ir =>
    if !jvTruthy ir then (t, ps, cmp)
    else
      match ir with
      | .str s => (.str s, ps, cmp)
      | ir =>
        if ir.isObjType then
          let t2 := jsOr (jsGetD ir "response")
            (jsOr (jsGetD ir "text") (jsOr (jsGetD ir "message") (.str "")))
          let ps2 :=
            if ps.isEmpty then
              match jsGet ir "products" with
              | some (.arr l) => l.filter productKeep
              | _ => ps
            else ps
          let cmp2 :=
            if cmp.isNone then
              match jsGet ir "comparison" with
              | some c =>
                if jvTruthy c && c.isObjType && attrsIsArr c then some c else cmp
              | none => cmp
            else cmp
          (t2, ps2, cmp2)
        else (t, ps, cmp)

/-- Lines 205-223: dispatch on the parsed `raw_response` value. -/
def rawParsedExtract (v t : JVal) (ps : List JVal) (cmp : Option JVal) :
    JVal × List JVal × Option JVal :=
  match v with
  | .str s => (.str s, ps, cmp)
  | v =>
    match jsGet v "response" with
    | some resp =>
      if jvTruthy resp && resp.isStr then (resp, ps, cmp)
      else innerResultExtract (jsGet resp "result") t ps cmp
    | none => innerResultExtract none t ps cmp

/-- Lines 203-230: when no text was found and `raw_response` is a truthy
string, try to parse it; a parse failure (the catch branch) uses the
non-empty raw string verbatim as text. -/
def rawFallback (jparse : String → Option JVal) (rawResponse : Option String)
    (t : JVal) (ps : List JVal) (cmp : Option JVal) :
    JVal × List JVal × Option JVal :=
  if jvTruthy t then (t, ps, cmp)
  else
    match rawResponse with
    | none => (t, ps, cmp)
    | some rr =>
      if rr = "" then (t, ps, cmp)
      else
        match jparse rr with
        | none => if rr.length > 0 then (.str rr, ps, cmp) else (t, ps, cmp)
        | some rawParsed => rawParsedExtract rawParsed t ps cmp

/-- Lines 232-235: the final fallback sentence when every avenue yielded
no (truthy) text. -/
def finalText (t : JVal) : JVal :=
  if jvTruthy t then t else .str fallbackSentence

/-- Lines 159-235: the main body of `parseAgentResponse` once the guard
has passed (`result.success` and `result.response` present). -/
def mainParse (jparse : String → Option JVal) (r : AIAgentResponse)
    (rp : AgentResponsePayload) : ParsedReply :=
  let tp := primaryParse jparse rp
  let step2 :=
    match tp.2 with
    | some p =>
      if jvTruthy p && p.isObjType then
        (extractText p, extractProducts p, extractComparison p)
      else (tp.1, ([] : List JVal), (none : Option JVal))
    | none => (tp.1, [], none)
  let text2 := if jvTruthy step2.1 then step2.1 else JVal.str (rp.message.getD "")
  let step4 := rawFallback jparse r.raw_response text2 step2.2.1 step2.2.2
  ⟨finalText step4.1, step4.2.1, step4.2.2⟩

/-- Lines 149-242: `parseAgentResponse`. The argument is `Option`-typed
because the source guards against a null `result`; `jparse` stands for
the JS `JSON.parse` builtin (`none` when it would throw). The outer
try/catch of the source is unreachable in this model since no modelled
operation throws. -/
def parseAgentResponse (jparse : String → Option JVal)
    (result : Option AIAgentResponse) : ParsedReply :=
  match result with
  | none => ⟨.str (guardText none), [], none⟩
  | some r =>
    if r.success then
      match r.response with
      | some rp => mainParse jparse r rp
      | none => ⟨.str (guardText r.error), [], none⟩
    else ⟨.str (guardText r.error), [], none⟩

/-- Message role (page.tsx line 54). -/
inductive Role where
  | user
  | assistant
deriving DecidableEq

/-- One chat turn (page.tsx lines 52-60). `content` is a `JVal` because
the assistant content is the dynamically typed normalizer text; user
messages always store a string. Absent optional fields are `none`;
an absent `error` flag is `false`. -/
structure Message where
  id : String
  role : Role
  content : JVal
  products : Option (List JVal)
  comparison : Option JVal
  timestamp : String
  error : Bool

/-- Whether a message was authored by the user (`m.role === 'user'`). -/
def Message.isUser (m : Message) : Bool :=
  match m.role with
  | .user => true
  | .assistant => false

/-- A conversation thread (page.tsx lines 62-69). -/
structure Conversation where
  id : String
  sessionId : String
  title : String
  messages : List Message
  createdAt : String
  updatedAt : String

/-- The client state touched by the message flow: the conversation
collection, the active-conversation pointer, the in-flight flag and the
input buffer (page.tsx lines 549-554). -/
structure AppState where
  conversations : List Conversation
  activeConversationId : Option String
  isLoading : Bool
  inputValue : String

/-- Line 563: `conversations.find((c) => c.id === activeConversationId)`. -/
def activeConversation (s : AppState) : Option Conversation :=
  s.activeConversationId.bind fun aid => s.conversations.find? fun c => c.id == aid

/-- Fresh identifiers consumed by one submission: `generateId()` results
for a new conversation id, its session id, the discarded session-id
fallback of line 679, the user message id and the reply message id. -/
structure FreshIds where
  convId : String
  sessId : String
  sessFallback : String
  userMsgId : String
  replyMsgId : String

/-- JS `text.trim()`: strip leading and trailing whitespace (written over
the character list so that it evaluates by kernel reduction). -/
def jsTrim (s : String) : String :=
  ⟨((s.data.dropWhile Char.isWhitespace).reverse.dropWhile Char.isWhitespace).reverse⟩

/-- The user message built at lines 698-703. -/
def userMessage (msgId now trimmed : String) : Message :=
  ⟨msgId, .user, .str trimmed, none, none, now, false⟩

/-- Lines 705-716: append the user message to the conversation with the
captured id, seeding the title from the text when it is the first
message, and refreshing `updatedAt`. -/
def appendUserTo (convId : String) (msg : Message) (trimmed now : String)
    (c : Conversation) : Conversation :=
  if c.id = convId then
    { c with
      title := if c.messages.isEmpty then trimmed.take 50 else c.title
      messages := c.messages ++ [msg]
      updatedAt := now }
  else c

/-- Lines 673-719 (the synchronous prefix of `sendMessage` up to the
gateway call): reject blank or in-flight submissions, create a
conversation when none is active, append the user message, clear the
input and raise the loading flag. Returns the new state together with
the captured conversation id and session id, or `none` for the no-op. -/
def sendMessageStart (ids : FreshIds) (now text : String) (s : AppState) :
    Option (AppState × String × String) :=
  let trimmed := jsTrim text
  if trimmed = "" || s.isLoading then none
  else
    let sessionId0 :=
      match activeConversation s with
      | some c => c.sessionId
      | none => ids.sessFallback
    let cs :=
      match s.activeConversationId with
      | some cid => (s.conversations, cid, sessionId0, s.activeConversationId)
      | none =>
        let newConv : Conversation :=
          ⟨ids.convId, ids.sessId, trimmed.take 50, [], now, now⟩
        (newConv :: s.conversations, ids.convId, ids.sessId, some ids.convId)
    let userMsg := userMessage ids.userMsgId now trimmed
    some
      ({ conversations := cs.1.map (appendUserTo cs.2.1 userMsg trimmed now)
         activeConversationId := cs.2.2.2
         isLoading := true
         inputValue := "" },
       cs.2.1, cs.2.2.1)

/-- The two outcomes of the awaited gateway call: a reply value (fed to
`parseAgentResponse`) or a rejection. -/
inductive Outcome where
  | success (result : Option AIAgentResponse)
  | failure

/-- The assistant message appended for an outcome: lines 727-734 build
the normalized assistant message (`products` only when non-empty,
`error` absent); lines 748-754 build the synthetic error message with
the fixed sentence and `error: true`. -/
def outcomeMessage (jparse : String → Option JVal) (msgId nowR : String) :
    Outcome → Message
  | .success result =>
    let pr := parseAgentResponse jparse result
    ⟨msgId, .assistant, pr.text,
      if pr.products.length > 0 then some pr.products else none,
      pr.comparison, nowR, false⟩
  | .failure => ⟨msgId, .assistant, .str gatewayErrorText, none, none, nowR, true⟩

/-- Lines 736-745 / 755-764: append a message to the conversation whose
id was captured at submission, refreshing `updatedAt`. -/
def appendReplyTo (convId : String) (msg : Message) (nowR : String)
    (c : Conversation) : Conversation :=
  if c.id = convId then { c with messages := c.messages ++ [msg], updatedAt := nowR }
  else c

/-- Lines 721-768: apply the gateway outcome to the state reached after
the user append — append the outcome's assistant message to the captured
conversation and clear the loading flag (the `finally` block). -/
def applyReply (jparse : String → Option JVal) (convId replyMsgId nowR : String)
    (oc : Outcome) (s : AppState) : AppState :=
  { s with
    conversations :=
      s.conversations.map (appendReplyTo convId (outcomeMessage jparse replyMsgId nowR oc) nowR)
    isLoading := false }

/-- One full submission turn (lines 673-771): the synchronous prefix
followed by the outcome application; a rejected submission leaves the
state untouched. -/
def sendMessage (jparse : String → Option JVal) (ids : FreshIds)
    (now nowR text : String) (oc : Outcome) (s : AppState) : AppState :=
  match sendMessageStart ids now text s with
  | none => s
  | some (s1, convId, _) => applyReply jparse convId ids.replyMsgId nowR oc s1

/-- Lines 780-786: drop every error-flagged message from the
conversation with the given id. -/
def dropErrorsIn (aid : String) (c : Conversation) : Conversation :=
  if c.id = aid then { c with messages := c.messages.filter fun m => !m.error }
  else c

/-- Lines 773-789: `retryLastMessage` — no-op without an active
conversation or with fewer than two messages; otherwise locate the last
user-authored message scanning backward, remove all error messages from
the active conversation and resubmit that user text. A non-string
content would make the resubmission reject at `text.trim()`, leaving
only the filtered state. -/
def retryLastMessage (jparse : String → Option JVal) (ids : FreshIds)
    (now nowR : String) (oc : Outcome) (s : AppState) : AppState :=
  match s.activeConversationId with
  | none => s
  | some aid =>
    match s.conversations.find? (fun c => c.id == aid) with
    | none => s
    | some conv =>
      if conv.messages.length < 2 then s
      else
        match conv.messages.reverse.find? Message.isUser with
        | none => s
        | some lastUserMsg =>
          let s2 : AppState := { s with conversations := s.conversations.map (dropErrorsIn aid) }
          match lastUserMsg.content with
          | .str t => sendMessage jparse ids now nowR t oc s2
          | _ => s2

/-- Spec-side description of the text extraction (spec section 4.1 step 4
and the key-precedence property): the value of the first key among
`response`, `text`, `message`, `answer`, `content` holding a non-empty
string. `keyText` is one probe: the key's value when it is a non-empty
string. -/
def keyText (p : JVal) (k : String) : Option String :=
  match jsGet p k with
  | some (.str s) => if s = "" then none else some s
  | _ => none

/-- Spec-side: the first non-empty string among the five known text keys
in their fixed priority order. -/
def firstNonEmptyKeyText (p : JVal) : Option String :=
  ((((keyText p "response").or (keyText p "text")).or (keyText p "message")).or
      (keyText p "answer")).or (keyText p "content")

/-- The per-message invariant of the spec's data model: a user message
carries no products, comparison or error flag; an error-flagged
assistant message carries no products or comparison. -/
def msgOk (m : Message) : Prop :=
  (m.role = .user → m.products = none ∧ m.comparison = none ∧ m.error = false)
  ∧ (m.role = .assistant → m.error = true → m.products = none ∧ m.comparison = none)

/-- The invariant lifted to the whole state: every message of every
conversation satisfies `msgOk`. -/
def stateOk (s : AppState) : Prop :=
  ∀ c ∈ s.conversations, ∀ m ∈ c.messages, msgOk m

/-- States reachable by the core's own operations from the empty initial
state: a full submission turn (user append followed by the success or
failure append) and retry. -/
inductive CoreReachable : AppState → Prop where
  | init : CoreReachable ⟨[], none, false, ""⟩
  | send (jparse : String → Option JVal) (ids : FreshIds) (now nowR text : String)
      (oc : Outcome) (s : AppState) :
      CoreReachable s → CoreReachable (sendMessage jparse ids now nowR text oc s)
  | retry (jparse : String → Option JVal) (ids : FreshIds) (now nowR : String)
      (oc : Outcome) (s : AppState) :
      CoreReachable s → CoreReachable (retryLastMessage jparse ids now nowR oc s)

theorem rawFallback_truthy (jparse : String → Option JVal) (rr : Option String)
    (t : JVal) (ps : List JVal) (cmp : Option JVal) (h : jvTruthy t = true) :
    rawFallback jparse rr t ps cmp = (t, ps, cmp) := by
  unfold rawFallback
  simp [h]

theorem rawFallback_none (jparse : String → Option JVal)
    (t : JVal) (ps : List JVal) (cmp : Option JVal) :
    rawFallback jparse none t ps cmp = (t, ps, cmp) := by
  unfold rawFallback
  split <;> rfl

theorem finalText_truthy (t : JVal) (h : jvTruthy t = true) : finalText t = t := by
  unfold finalText
  simp [h]

theorem strOrEmpty_eq_keyText (p : JVal) (k : String) :
    strOrEmpty (jsGet p k) = .str ((keyText p k).getD "") := by
  unfold keyText strOrEmpty
  cases h : jsGet p k with
  | none => rfl
  | some v =>
    cases v with
    | str s =>
      by_cases hs : s = ""
      · simp [hs]
      · simp [hs]
    | null => rfl
    | bool b => rfl
    | num n => rfl
    | arr l => rfl
    | obj fs => rfl

theorem keyText_ne_some_empty (p : JVal) (k : String) : keyText p k ≠ some "" := by
  unfold keyText
  split
  · split
    · simp
    · next hne => intro h; injection h with h2; exact hne h2
  · simp

theorem or_ne_some_empty {o1 o2 : Option String}
    (h1 : o1 ≠ some "") (h2 : o2 ≠ some "") : o1.or o2 ≠ some "" := by
  cases o1 with
  | none => simpa [Option.or] using h2
  | some s => simpa [Option.or] using h1

theorem chain_step {o1 o2 : Option String} (h1 : o1 ≠ some "") :
    (if jvTruthy (.str (o1.getD "")) then (.str (o1.getD "") : JVal)
      else .str (o2.getD "")) = .str ((o1.or o2).getD "") := by
  cases o1 with
  | none => simp [jvTruthy, Option.or]
  | some s =>
    have hs : s ≠ "" := fun h => h1 (by rw [h])
    simp [jvTruthy, Option.or, hs]

theorem extractText_eq_firstKey (p : JVal) :
    extractText p = .str ((firstNonEmptyKeyText p).getD "") := by
  unfold extractText firstNonEmptyKeyText
  dsimp only
  rw [strOrEmpty_eq_keyText p "response", strOrEmpty_eq_keyText p "text",
    strOrEmpty_eq_keyText p "message", strOrEmpty_eq_keyText p "answer",
    strOrEmpty_eq_keyText p "content"]
  rw [chain_step (keyText_ne_some_empty p "response")]
  rw [chain_step (or_ne_some_empty (keyText_ne_some_empty p "response")
    (keyText_ne_some_empty p "text"))]
  rw [chain_step (or_ne_some_empty (or_ne_some_empty (keyText_ne_some_empty p "response")
    (keyText_ne_some_empty p "text")) (keyText_ne_some_empty p "message"))]
  rw [chain_step (or_ne_some_empty (or_ne_some_empty (or_ne_some_empty
    (keyText_ne_some_empty p "response") (keyText_ne_some_empty p "text"))
    (keyText_ne_some_empty p "message")) (keyText_ne_some_empty p "answer"))]

theorem firstKey_ne_empty {p : JVal} {a : String}
    (h : firstNonEmptyKeyText p = some a) : a ≠ "" := by
  intro rfl_a
  subst rfl_a
  unfold firstNonEmptyKeyText at h
  exact or_ne_some_empty (or_ne_some_empty (or_ne_some_empty (or_ne_some_empty
    (keyText_ne_some_empty p "response") (keyText_ne_some_empty p "text"))
    (keyText_ne_some_empty p "message")) (keyText_ne_some_empty p "answer"))
    (keyText_ne_some_empty p "content") h

theorem parse_obj_candidate (jparse : String → Option JVal) (r : AIAgentResponse)
    (rp : AgentResponsePayload) (fs : List (String × JVal))
    (hs : r.success = true) (hr : r.response = some rp)
    (hres : rp.result = some (.obj fs)) :
    parseAgentResponse jparse (some r) =
      ⟨finalText (rawFallback jparse r.raw_response
          (jsOr (extractText (.obj fs)) (.str (rp.message.getD "")))
          (extractProducts (.obj fs)) (extractComparison (.obj fs))).1,
        (rawFallback jparse r.raw_response
          (jsOr (extractText (.obj fs)) (.str (rp.message.getD "")))
          (extractProducts (.obj fs)) (extractComparison (.obj fs))).2.1,
        (rawFallback jparse r.raw_response
          (jsOr (extractText (.obj fs)) (.str (rp.message.getD "")))
          (extractProducts (.obj fs)) (extractComparison (.obj fs))).2.2⟩ := by
  have h1 : parseAgentResponse jparse (some r) = mainParse jparse r rp := by
    simp [parseAgentResponse, hs, hr]
  rw [h1]
  unfold mainParse
  rw [show primaryParse jparse rp = (.str "", some (.obj fs)) from by
    simp [primaryParse, hres, jvTruthy, JVal.isObjType, JVal.isArr]]
  dsimp only
  simp only [show (jvTruthy (.obj fs) && JVal.isObjType (.obj fs)) = true from rfl,
    if_true, jsOr]

theorem productKeep_eq_true_iff (x : JVal) :
    productKeep x = true ↔ jvTruthy x = true ∧ ∃ s, jsGet x "name" = some (.str s) := by
  unfold productKeep
  cases h : jsGet x "name" with
  | none => simp
  | some v => cases v <;> simp

theorem extractComparison_bad {fs : List (String × JVal)} {c : JVal}
    (hcmp : jsGet (.obj fs) "comparison" = some c)
    (hbad : c.isArr = true ∨ attrsIsArr c = false) :
    extractComparison (.obj fs) = none := by
  unfold extractComparison
  rw [hcmp]
  rcases hbad with h | h <;> simp [h]

/-- C4: for every candidate object held in `response.result`, the
normalized text is the value of the first key among `response`, `text`,
`message`, `answer`, `content` holding a non-empty string; in particular
a candidate with both `response` and `message` set yields `response`. -/
theorem text_key_precedence (jparse : String → Option JVal) (r : AIAgentResponse)
    (rp : AgentResponsePayload) (fs : List (String × JVal)) (a : String)
    (hs : r.success = true) (hr : r.response = some rp)
    (hres : rp.result = some (.obj fs))
    (hfirst : firstNonEmptyKeyText (.obj fs) = some a) :
    (parseAgentResponse jparse (some r)).text = .str a := by
  have hne : a ≠ "" := firstKey_ne_empty hfirst
  have htr : jvTruthy (.str a) = true := by simp [jvTruthy, hne]
  have hext : extractText (.obj fs) = .str a := by
    rw [extractText_eq_firstKey, hfirst]
    rfl
  rw [parse_obj_candidate jparse r rp fs hs hr hres]
  rw [hext, show jsOr (.str a) (.str (rp.message.getD "")) = .str a from by
    simp [jsOr, htr]]
  rw [rawFallback_truthy _ _ _ _ _ htr]
  simp [finalText_truthy _ htr]

/-- C4 witness: a candidate with `response` = "A" and `message` = "B"
normalizes to the text "A". -/
theorem text_key_precedence_witness :
    (parseAgentResponse (fun _ => none)
      (some ⟨true, some ⟨some (.obj [("response", .str "A"), ("message", .str "B")]),
        none⟩, none, none⟩)).text = .str "A" :=
  text_key_precedence (fun _ => none) _ _ _ "A" rfl rfl rfl rfl

/-- C2 counterexample: an entry whose `name` is the empty string is kept
by the products filter, contradicting the claim that only entries with a
non-empty string `name` are included. -/
theorem products_empty_name_kept :
    jsGet (.obj [("name", JVal.str "")]) "name" = some (.str "")
    ∧ (parseAgentResponse (fun _ => none)
        (some ⟨true, some ⟨some (.obj [("response", .str "hi"),
          ("products", .arr [.obj [("name", .str "")]])]), none⟩, none, none⟩)).products
      = [.obj [("name", .str "")]] :=
  ⟨rfl, rfl⟩

/-- C2 amended: a products entry survives normalization exactly when it
is truthy and its `name` field is a string (possibly empty); each failing
entry is dropped individually while the rest of the list survives. -/
theorem products_filter_characterization (jparse : String → Option JVal)
    (r : AIAgentResponse) (rp : AgentResponsePayload) (fs : List (String × JVal))
    (l : List JVal) (x : JVal)
    (hs : r.success = true) (hr : r.response = some rp)
    (hres : rp.result = some (.obj fs))
    (hprod : jsGet (.obj fs) "products" = some (.arr l))
    (hraw : r.raw_response = none) :
    (parseAgentResponse jparse (some r)).products = l.filter productKeep
    ∧ (x ∈ (parseAgentResponse jparse (some r)).products ↔
        x ∈ l ∧ jvTruthy x = true ∧ ∃ s, jsGet x "name" = some (.str s)) := by
  have hp : (parseAgentResponse jparse (some r)).products = l.filter productKeep := by
    rw [parse_obj_candidate jparse r rp fs hs hr hres, hraw, rawFallback_none]
    simp [extractProducts, hprod]
  refine ⟨hp, ?_⟩
  rw [hp, List.mem_filter, productKeep_eq_true_iff]

/-- C2 witness for the amended statement: from a two-entry list, the
object entry with a string name is kept and the nameless entry dropped. -/
theorem products_filter_characterization_witness :
    (parseAgentResponse (fun _ => none)
      (some ⟨true, some ⟨some (.obj [("response", .str "hi"),
        ("products", .arr [.obj [("name", .str "HubSpot CRM")], .obj [("description", .str "x")]])]),
        none⟩, none, none⟩)).products
      = [.obj [("name", .str "HubSpot CRM")], .obj [("description", .str "x")]].filter productKeep
    ∧ ((.obj [("name", .str "HubSpot CRM")] : JVal) ∈ (parseAgentResponse (fun _ => none)
        (some ⟨true, some ⟨some (.obj [("response", .str "hi"),
          ("products", .arr [.obj [("name", .str "HubSpot CRM")], .obj [("description", .str "x")]])]),
          none⟩, none, none⟩)).products ↔
        (.obj [("name", .str "HubSpot CRM")] : JVal) ∈
          ([.obj [("name", .str "HubSpot CRM")], .obj [("description", .str "x")]] : List JVal)
        ∧ jvTruthy (.obj [("name", .str "HubSpot CRM")]) = true
        ∧ ∃ s, jsGet (.obj [("name", .str "HubSpot CRM")]) "name" = some (.str s)) :=
  products_filter_characterization (fun _ => none) _ _ _ _ _ rfl rfl rfl rfl rfl

/-- C3 counterexample: a candidate lacking every known text key but
carrying a well-formed products list yields the fallback sentence with a
NON-empty products list, contradicting the claim that the output then
has empty products. -/
theorem fallback_keeps_products :
    (parseAgentResponse (fun _ => none)
      (some ⟨true, some ⟨some (.obj [("products", .arr [.obj [("name", .str "HubSpot")]])]),
        none⟩, none, none⟩)).text = .str fallbackSentence
    ∧ (parseAgentResponse (fun _ => none)
        (some ⟨true, some ⟨some (.obj [("products", .arr [.obj [("name", .str "HubSpot")]])]),
          none⟩, none, none⟩)).products = [.obj [("name", .str "HubSpot")]] :=
  ⟨rfl, rfl⟩

/-- C3 amended: normalization is a total function, and for every
candidate object lacking every known text key, extracting no products
and no comparison, with an empty top-level `message` and an absent
`raw_response`, the result is exactly the fixed fallback sentence with
empty products and absent comparison. -/
theorem fallback_on_no_text (jparse : String → Option JVal) (r : AIAgentResponse)
    (rp : AgentResponsePayload) (fs : List (String × JVal))
    (hs : r.success = true) (hr : r.response = some rp)
    (hres : rp.result = some (.obj fs))
    (h1 : jsGet (.obj fs) "response" = none)
    (h2 : jsGet (.obj fs) "text" = none)
    (h3 : jsGet (.obj fs) "message" = none)
    (h4 : jsGet (.obj fs) "answer" = none)
    (h5 : jsGet (.obj fs) "content" = none)
    (hp : extractProducts (.obj fs) = [])
    (hc : extractComparison (.obj fs) = none)
    (hm : rp.message.getD "" = "")
    (hraw : r.raw_response = none) :
    parseAgentResponse jparse (some r) = ⟨.str fallbackSentence, [], none⟩ := by
  have hext : extractText (.obj fs) = .str "" := by
    rw [extractText_eq_firstKey]
    simp [firstNonEmptyKeyText, keyText, h1, h2, h3, h4, h5, Option.or]
  rw [parse_obj_candidate jparse r rp fs hs hr hres, hext, hraw, hp, hc]
  rw [show jsOr (.str "") (.str (rp.message.getD "")) = .str "" from by
    simp [jsOr, jvTruthy, hm]]
  rw [rawFallback_none]
  simp [finalText, jvTruthy]

/-- C3 witness: a candidate with only an unknown key and no products or
comparison, empty message, no raw payload, maps to the fallback triple. -/
theorem fallback_on_no_text_witness :
    parseAgentResponse (fun _ => none)
      (some ⟨true, some ⟨some (.obj [("other", .str "x")]), none⟩, none, none⟩)
      = ⟨.str fallbackSentence, [], none⟩ :=
  fallback_on_no_text (fun _ => none) _ _ _ rfl rfl rfl rfl rfl rfl rfl rfl rfl rfl rfl rfl

/-- C5 counterexample: a candidate whose `comparison` field is an array
is rejected by the primary extraction, yet the normalized output carries
a non-absent comparison supplied by the `raw_response` fallback,
contradicting the claim that the output comparison is then absent. -/
theorem comparison_list_but_output_present :
    jsGet (.obj [("comparison", JVal.arr [])]) "comparison" = some (.arr [])
    ∧ (parseAgentResponse
        (fun s => if s = "R" then
          some (.obj [("response", .obj [("result",
            .obj [("comparison", .obj [("attributes", .arr [])])])])])
          else none)
        (some ⟨true, some ⟨some (.obj [("comparison", .arr [])]), none⟩, none,
          some "R"⟩)).comparison
      = some (.obj [("attributes", .arr [])]) :=
  ⟨rfl, rfl⟩

/-- C5 amended: for every candidate whose `comparison` field is an array
or lacks an array-valued `attributes` field, and whose reply carries no
`raw_response` (so the secondary fallback cannot supply one), the
normalized comparison is absent. -/
theorem comparison_rejection (jparse : String → Option JVal) (r : AIAgentResponse)
    (rp : AgentResponsePayload) (fs : List (String × JVal)) (c : JVal)
    (hs : r.success = true) (hr : r.response = some rp)
    (hres : rp.result = some (.obj fs))
    (hcmp : jsGet (.obj fs) "comparison" = some c)
    (hbad : c.isArr = true ∨ attrsIsArr c = false)
    (hraw : r.raw_response = none) :
    (parseAgentResponse jparse (some r)).comparison = none := by
  rw [parse_obj_candidate jparse r rp fs hs hr hres, hraw, rawFallback_none,
    extractComparison_bad hcmp hbad]

/-- C5 witness: a candidate whose comparison is an array, in a reply
without raw payload, yields an absent comparison. -/
theorem comparison_rejection_witness :
    (parseAgentResponse (fun _ => none)
      (some ⟨true, some ⟨some (.obj [("response", .str "hi"), ("comparison", .arr [])]),
        none⟩, none, none⟩)).comparison = none :=
  comparison_rejection (fun _ => none) _ _ _ (.arr []) rfl rfl rfl rfl (Or.inl rfl) rfl

/-- C10: the comparison acceptance only checks for a non-array object
with array `attributes` and passes the object through unchanged, so some
input normalizes to a present comparison that has no `products` field at
all. -/
theorem comparison_passthrough_without_products :
    ∃ v, (parseAgentResponse (fun _ => none)
        (some ⟨true, some ⟨some (.obj [("response", .str "ok"),
          ("comparison", .obj [("attributes", .arr [.str "a"])])]), none⟩, none,
          none⟩)).comparison = some v
      ∧ jsGet v "products" = none ∧ attrsIsArr v = true :=
  ⟨.obj [("attributes", .arr [.str "a"])], rfl, rfl, rfl⟩

/-- C9: a blank (empty or whitespace-only) submission, or any submission
while a turn is in flight, leaves the whole state untouched: no
conversation created, no message appended, no title, timestamp, pointer
or flag change. -/
theorem blank_or_inflight_submission_noop (jparse : String → Option JVal)
    (ids : FreshIds) (now nowR text : String) (oc : Outcome) (s : AppState)
    (h : jsTrim text = "" ∨ s.isLoading = true) :
    sendMessage jparse ids now nowR text oc s = s := by
  unfold sendMessage sendMessageStart
  rcases h with h | h <;> simp [h]

/-- C9 witness: a whitespace-only submission on an idle non-empty state
is the identity. -/
theorem blank_or_inflight_submission_noop_witness :
    sendMessage (fun _ => none) ⟨"nc", "ns", "nf", "um", "am"⟩ "t1" "t2" "  " Outcome.failure
      ⟨[⟨"c1", "s1", "T", [], "t0", "t0"⟩], some "c1", false, ""⟩
      = ⟨[⟨"c1", "s1", "T", [], "t0", "t0"⟩], some "c1", false, ""⟩ :=
  blank_or_inflight_submission_noop (fun _ => none) _ _ _ _ _ _ (Or.inl (by decide))

/-- C6: when the gateway call rejects, the failure branch appends to the
captured conversation exactly one synthetic assistant message carrying
`error = true` and the fixed sentence, so its message count grows by
exactly one relative to the state holding the already-appended user
message. -/
theorem gateway_failure_appends_single_error (jparse : String → Option JVal)
    (convId mid nowR : String) (s : AppState) (c : Conversation)
    (hmem : c ∈ s.conversations) (hid : c.id = convId) :
    { c with
        messages := c.messages ++ [⟨mid, .assistant, .str gatewayErrorText, none, none, nowR, true⟩]
        updatedAt := nowR }
      ∈ (applyReply jparse convId mid nowR .failure s).conversations
    ∧ (c.messages ++ [(⟨mid, .assistant, .str gatewayErrorText, none, none, nowR, true⟩ : Message)]).length
        = c.messages.length + 1 := by
  constructor
  · have h := List.mem_map_of_mem
      (appendReplyTo convId (outcomeMessage jparse mid nowR .failure) nowR) hmem
    rw [show appendReplyTo convId (outcomeMessage jparse mid nowR .failure) nowR c
        = { c with
            messages := c.messages ++ [⟨mid, .assistant, .str gatewayErrorText, none, none, nowR, true⟩]
            updatedAt := nowR } from by
      simp [appendReplyTo, hid, outcomeMessage]] at h
    exact h
  · simp

/-- C6 witness: on a one-conversation state just after the user append,
the failure branch produces the two-message conversation. -/
theorem gateway_failure_appends_single_error_witness :
    ({ (⟨"c1", "s1", "T", [⟨"m1", .user, .str "hi", none, none, "t0", false⟩], "t0", "t0"⟩ : Conversation) with
        messages := [⟨"m1", .user, .str "hi", none, none, "t0", false⟩]
          ++ [⟨"am", .assistant, .str gatewayErrorText, none, none, "t2", true⟩]
        updatedAt := "t2" }
      ∈ (applyReply (fun _ => none) "c1" "am" "t2" .failure
          ⟨[⟨"c1", "s1", "T", [⟨"m1", .user, .str "hi", none, none, "t0", false⟩], "t0", "t0"⟩],
            some "c1", true, ""⟩).conversations)
    ∧ (([(⟨"m1", Role.user, .str "hi", none, none, "t0", false⟩ : Message)]).length + 1 = 2) := by
  have h := gateway_failure_appends_single_error (fun _ => none) "c1" "am" "t2"
    ⟨[⟨"c1", "s1", "T", [⟨"m1", .user, .str "hi", none, none, "t0", false⟩], "t0", "t0"⟩],
      some "c1", true, ""⟩
    ⟨"c1", "s1", "T", [⟨"m1", .user, .str "hi", none, none, "t0", false⟩], "t0", "t0"⟩
    (List.mem_singleton.mpr rfl) rfl
  exact ⟨h.1, rfl⟩

/-- C8: the reply (success or failure alike) is applied to the
conversation whose id was captured at submission: the result does not
depend on a meanwhile-changed active-conversation pointer, every
conversation with a different id survives unchanged, and the captured
conversation receives exactly the outcome message. -/
theorem reply_targets_captured_conversation (jparse : String → Option JVal)
    (convId mid nowR : String) (oc : Outcome) (s : AppState)
    (newActive : Option String) (c : Conversation) (hmem : c ∈ s.conversations) :
    ((applyReply jparse convId mid nowR oc
        { s with activeConversationId := newActive }).conversations
      = (applyReply jparse convId mid nowR oc s).conversations)
    ∧ (c.id ≠ convId →
        c ∈ (applyReply jparse convId mid nowR oc
          { s with activeConversationId := newActive }).conversations)
    ∧ (c.id = convId →
        { c with messages := c.messages ++ [outcomeMessage jparse mid nowR oc]
                 updatedAt := nowR }
          ∈ (applyReply jparse convId mid nowR oc
            { s with activeConversationId := newActive }).conversations) := by
  refine ⟨rfl, ?_, ?_⟩
  · intro hne
    have h := List.mem_map_of_mem
      (appendReplyTo convId (outcomeMessage jparse mid nowR oc) nowR) hmem
    rw [show appendReplyTo convId (outcomeMessage jparse mid nowR oc) nowR c = c from by
      simp [appendReplyTo, hne]] at h
    exact h
  · intro hid
    have h := List.mem_map_of_mem
      (appendReplyTo convId (outcomeMessage jparse mid nowR oc) nowR) hmem
    rw [show appendReplyTo convId (outcomeMessage jparse mid nowR oc) nowR c
        = { c with messages := c.messages ++ [outcomeMessage jparse mid nowR oc]
                   updatedAt := nowR } from by
      simp [appendReplyTo, hid]] at h
    exact h

/-- C8 witness: with two conversations and the active pointer moved to
the second, the success reply still lands on the first (captured)
conversation and the second conversation is untouched. -/
theorem reply_targets_captured_conversation_witness :
    ((applyReply (fun _ => none) "c1" "am" "t2" (.success none)
        { conversations := [⟨"c1", "s1", "T1", [], "t0", "t0"⟩, ⟨"c2", "s2", "T2", [], "t0", "t0"⟩]
          activeConversationId := some "c2", isLoading := true, inputValue := "" }).conversations
      = (applyReply (fun _ => none) "c1" "am" "t2" (.success none)
          ⟨[⟨"c1", "s1", "T1", [], "t0", "t0"⟩, ⟨"c2", "s2", "T2", [], "t0", "t0"⟩],
            some "c1", true, ""⟩).conversations)
    ∧ ((⟨"c2", "s2", "T2", [], "t0", "t0"⟩ : Conversation)
        ∈ (applyReply (fun _ => none) "c1" "am" "t2" (.success none)
          { conversations := [⟨"c1", "s1", "T1", [], "t0", "t0"⟩, ⟨"c2", "s2", "T2", [], "t0", "t0"⟩]
            activeConversationId := some "c2", isLoading := true, inputValue := "" }).conversations) := by
  have h := reply_targets_captured_conversation (fun _ => none) "c1" "am" "t2"
    (.success none)
    ⟨[⟨"c1", "s1", "T1", [], "t0", "t0"⟩, ⟨"c2", "s2", "T2", [], "t0", "t0"⟩], some "c1", true, ""⟩
    (some "c2") ⟨"c2", "s2", "T2", [], "t0", "t0"⟩
    (by simp)
  exact ⟨h.1, h.2.1 (by decide)⟩

theorem msgOk_userMessage (msgId now trimmed : String) :
    msgOk (userMessage msgId now trimmed) := by
  constructor
  · intro _
    exact ⟨rfl, rfl, rfl⟩
  · intro h
    cases h

theorem msgOk_outcomeMessage (jparse : String → Option JVal) (msgId nowR : String)
    (oc : Outcome) : msgOk (outcomeMessage jparse msgId nowR oc) := by
  cases oc with
  | success result =>
    constructor
    · intro h
      cases h
    · intro _ h
      cases h
  | failure =>
    constructor
    · intro h
      cases h
    · intro _ _
      exact ⟨rfl, rfl⟩

theorem stateOk_map_msgs (convs : List Conversation) (f : Conversation → Conversation)
    (h : ∀ c ∈ convs, ∀ m ∈ c.messages, msgOk m)
    (hf : ∀ c, ∀ m ∈ (f c).messages, m ∈ c.messages ∨ msgOk m) :
    ∀ c ∈ convs.map f, ∀ m ∈ c.messages, msgOk m := by
  intro c hc m hm
  rw [List.mem_map] at hc
  obtain ⟨c0, hc0, rfl⟩ := hc
  rcases hf c0 m hm with h1 | h2
  · exact h c0 hc0 m h1
  · exact h2

theorem appendUserTo_msgs (convId : String) (msg : Message) (trimmed now : String)
    (c : Conversation) (m : Message) (hm : m ∈ (appendUserTo convId msg trimmed now c).messages) :
    m ∈ c.messages ∨ m = msg := by
  unfold appendUserTo at hm
  split at hm
  · simp only [List.mem_append, List.mem_singleton] at hm
    exact hm
  · exact Or.inl hm

theorem appendReplyTo_msgs (convId : String) (msg : Message) (nowR : String)
    (c : Conversation) (m : Message) (hm : m ∈ (appendReplyTo convId msg nowR c).messages) :
    m ∈ c.messages ∨ m = msg := by
  unfold appendReplyTo at hm
  split at hm
  · simp only [List.mem_append, List.mem_singleton] at hm
    exact hm
  · exact Or.inl hm

theorem dropErrorsIn_msgs (aid : String) (c : Conversation) (m : Message)
    (hm : m ∈ (dropErrorsIn aid c).messages) : m ∈ c.messages := by
  unfold dropErrorsIn at hm
  split at hm
  · exact (List.mem_filter.mp hm).1
  · exact hm

theorem stateOk_appendUser (convs : List Conversation) (convId : String)
    (msg : Message) (trimmed now : String) (hok : msgOk msg)
    (h : ∀ c ∈ convs, ∀ m ∈ c.messages, msgOk m) :
    ∀ c ∈ convs.map (appendUserTo convId msg trimmed now), ∀ m ∈ c.messages, msgOk m := by
  refine stateOk_map_msgs _ _ h ?_
  intro c0 m hm
  rcases appendUserTo_msgs _ _ _ _ _ _ hm with h1 | rfl
  · exact Or.inl h1
  · exact Or.inr hok

theorem stateOk_sendMessageStart (ids : FreshIds) (now text : String) (s : AppState)
    (s1 : AppState) (cid sid : String) (h : stateOk s)
    (heq : sendMessageStart ids now text s = some (s1, cid, sid)) : stateOk s1 := by
  unfold sendMessageStart at heq
  dsimp only at heq
  cases hguard : (decide (jsTrim text = "") || s.isLoading) with
  | true =>
    rw [hguard] at heq
    simp at heq
  | false =>
    rw [hguard] at heq
    rw [if_neg (show ¬(false = true) by decide)] at heq
    cases hact : s.activeConversationId with
    | some cid0 =>
      rw [hact] at heq
      dsimp only at heq
      cases heq
      intro c hc
      exact stateOk_appendUser s.conversations _ _ _ _ (msgOk_userMessage _ _ _) h c hc
    | none =>
      rw [hact] at heq
      dsimp only at heq
      cases heq
      intro c hc
      refine stateOk_appendUser _ _ _ _ _ (msgOk_userMessage _ _ _) ?_ c hc
      intro c0 hc0 m hm
      rcases List.mem_cons.mp hc0 with rfl | hc1
      · cases hm
      · exact h c0 hc1 m hm

theorem stateOk_applyReply (jparse : String → Option JVal) (convId mid nowR : String)
    (oc : Outcome) (s : AppState) (h : stateOk s) :
    stateOk (applyReply jparse convId mid nowR oc s) := by
  intro c hc
  refine stateOk_map_msgs s.conversations _ h ?_ c hc
  intro c0 m hm
  rcases appendReplyTo_msgs _ _ _ _ _ hm with h1 | rfl
  · exact Or.inl h1
  · exact Or.inr (msgOk_outcomeMessage _ _ _ _)

theorem stateOk_sendMessage (jparse : String → Option JVal) (ids : FreshIds)
    (now nowR text : String) (oc : Outcome) (s : AppState) (h : stateOk s) :
    stateOk (sendMessage jparse ids now nowR text oc s) := by
  unfold sendMessage
  split
  · exact h
  · next s1 cid sid heq =>
    exact stateOk_applyReply jparse cid ids.replyMsgId nowR oc s1
      (stateOk_sendMessageStart ids now text s s1 cid sid h heq)

theorem stateOk_dropErrors (aid : String) (s : AppState) (h : stateOk s) :
    stateOk { s with conversations := s.conversations.map (dropErrorsIn aid) } := by
  intro c hc
  refine stateOk_map_msgs s.conversations _ h ?_ c hc
  intro c0 m hm
  exact Or.inl (dropErrorsIn_msgs _ _ _ hm)

theorem stateOk_retry (jparse : String → Option JVal) (ids : FreshIds)
    (now nowR : String) (oc : Outcome) (s : AppState) (h : stateOk s) :
    stateOk (retryLastMessage jparse ids now nowR oc s) := by
  unfold retryLastMessage
  split
  · exact h
  · split
    · exact h
    · split
      · exact h
      · split
        · exact h
        · split
          · exact stateOk_sendMessage _ _ _ _ _ _ _ (stateOk_dropErrors _ _ h)
          · exact stateOk_dropErrors _ _ h

/-- C7: in every state reachable by the core's own operations, every
user message carries no products, no comparison and no error flag, and
every error-flagged assistant message carries no products and no
comparison. -/
theorem reachable_message_invariant (s : AppState) (h : CoreReachable s) : stateOk s := by
  induction h with
  | init =>
    intro c hc
    cases hc
  | send jparse ids now nowR text oc s hs ih =>
    exact stateOk_sendMessage jparse ids now nowR text oc s ih
  | retry jparse ids now nowR oc s hs ih =>
    exact stateOk_retry jparse ids now nowR oc s ih

/-- C7 witness: the invariant holds of the concrete state reached by one
failing submission from the initial state. -/
theorem reachable_message_invariant_witness :
    stateOk (sendMessage (fun _ => none) ⟨"nc", "ns", "nf", "um", "am"⟩ "t0" "t1" "hello"
      Outcome.failure ⟨[], none, false, ""⟩) :=
  reachable_message_invariant _
    (CoreReachable.send (fun _ => none) ⟨"nc", "ns", "nf", "um", "am"⟩ "t0" "t1" "hello"
      Outcome.failure ⟨[], none, false, ""⟩ CoreReachable.init)

theorem appendUserTo_id (convId : String) (msg : Message) (trimmed now : String)
    (c : Conversation) : (appendUserTo convId msg trimmed now c).id = c.id := by
  unfold appendUserTo
  split <;> rfl

theorem appendReplyTo_id (convId : String) (msg : Message) (nowR : String)
    (c : Conversation) : (appendReplyTo convId msg nowR c).id = c.id := by
  unfold appendReplyTo
  split <;> rfl

theorem dropErrorsIn_id (aid : String) (c : Conversation) :
    (dropErrorsIn aid c).id = c.id := by
  unfold dropErrorsIn
  split <;> rfl

theorem find?_map_keepId (f : Conversation → Conversation)
    (hf : ∀ c, (f c).id = c.id) (aid : String) :
    ∀ l : List Conversation,
      (l.map f).find? (fun c => c.id == aid) = (l.find? (fun c => c.id == aid)).map f
  | [] => rfl
  | c :: l => by
    rw [List.map_cons, List.find?_cons, List.find?_cons, hf c]
    cases hc : (c.id == aid) with
    | true => rfl
    | false => exact find?_map_keepId f hf aid l

theorem outcomeMessage_isUser (jparse : String → Option JVal) (msgId nowR : String)
    (oc : Outcome) : Message.isUser (outcomeMessage jparse msgId nowR oc) = false := by
  cases oc <;> rfl

theorem outcomeMessage_role (jparse : String → Option JVal) (msgId nowR : String)
    (oc : Outcome) : (outcomeMessage jparse msgId nowR oc).role = Role.assistant := by
  cases oc <;> rfl

theorem userMessage_isUser (msgId now trimmed : String) :
    Message.isUser (userMessage msgId now trimmed) = true := rfl

theorem countP_isUser_filter_not_error (msgs : List Message)
    (h : ∀ m ∈ msgs, m.isUser = true → m.error = false) :
    (msgs.filter fun m => !m.error).countP Message.isUser
      = msgs.countP Message.isUser := by
  induction msgs with
  | nil => rfl
  | cons m rest ih =>
    have hrest : ∀ x ∈ rest, x.isUser = true → x.error = false :=
      fun x hx => h x (List.mem_cons_of_mem m hx)
    cases he : m.error with
    | true =>
      have hu : m.isUser = false := by
        cases hmu : m.isUser with
        | false => rfl
        | true => rw [h m (List.mem_cons_self m rest) hmu] at he; cases he
      simp [List.filter_cons, he, hu, List.countP_cons, ih hrest]
    | false =>
      simp [List.filter_cons, he, List.countP_cons, ih hrest]

theorem sendMessage_active_conversations (jparse : String → Option JVal)
    (ids : FreshIds) (now nowR t : String) (oc : Outcome) (s : AppState) (aid : String)
    (ha : s.activeConversationId = some aid) (hload : s.isLoading = false)
    (htr : jsTrim t ≠ "") :
    (sendMessage jparse ids now nowR t oc s).conversations
      = s.conversations.map (fun c =>
          appendReplyTo aid (outcomeMessage jparse ids.replyMsgId nowR oc) nowR
            (appendUserTo aid (userMessage ids.userMsgId now (jsTrim t)) (jsTrim t) now c)) := by
  have hstart : sendMessageStart ids now t s
      = some ({ conversations := s.conversations.map
                  (appendUserTo aid (userMessage ids.userMsgId now (jsTrim t)) (jsTrim t) now)
                activeConversationId := some aid
                isLoading := true
                inputValue := "" }, aid,
              (match activeConversation s with
               | some c => c.sessionId
               | none => ids.sessFallback)) := by
    unfold sendMessageStart
    dsimp only
    rw [if_neg (by simp [htr, hload])]
    rw [ha]
  unfold sendMessage
  rw [hstart]
  dsimp only [applyReply]
  rw [List.map_map]
  rfl

/-- C1 amended: on an active conversation with at least two messages
ending in an error-flagged assistant message, retry removes all
error-flagged messages and resubmits the last user text, appending one
new copy of that user message and exactly one new assistant turn, so the
user-message count grows by exactly one (it is not unchanged). -/
theorem retry_after_error (jparse : String → Option JVal) (ids : FreshIds)
    (now nowR : String) (oc : Outcome) (s : AppState) (aid : String)
    (conv : Conversation) (lum : Message) (t : String)
    (ha : s.activeConversationId = some aid)
    (hfind : s.conversations.find? (fun c => c.id == aid) = some conv)
    (hlen : 2 ≤ conv.messages.length)
    (_hlast : ∃ mlast, conv.messages.getLast? = some mlast ∧ mlast.error = true)
    (hlum : conv.messages.reverse.find? Message.isUser = some lum)
    (hct : lum.content = .str t)
    (htr : jsTrim t ≠ "")
    (hload : s.isLoading = false)
    (hOk : ∀ m ∈ conv.messages, m.isUser = true → m.error = false) :
    ∃ conv2,
      (retryLastMessage jparse ids now nowR oc s).conversations.find?
        (fun c => c.id == aid) = some conv2
      ∧ conv2.messages = conv.messages.filter (fun m => !m.error)
          ++ [userMessage ids.userMsgId now (jsTrim t),
              outcomeMessage jparse ids.replyMsgId nowR oc]
      ∧ conv2.messages.countP Message.isUser
          = conv.messages.countP Message.isUser + 1
      ∧ (outcomeMessage jparse ids.replyMsgId nowR oc).role = Role.assistant := by
  have hcid : conv.id = aid := by
    have := List.find?_some hfind
    simpa using this
  have hmem : lum ∈ conv.messages := List.mem_reverse.mp (List.mem_of_find?_eq_some hlum)
  have hlumUser : Message.isUser lum = true := List.find?_some hlum
  have hlumErr : lum.error = false := hOk lum hmem hlumUser
  have hmemf : lum ∈ conv.messages.filter (fun m => !m.error) :=
    List.mem_filter.mpr ⟨hmem, by simp [hlumErr]⟩
  have hfne : (conv.messages.filter (fun m => !m.error)).isEmpty = false :=
    List.isEmpty_eq_false.mpr (List.ne_nil_of_mem hmemf)
  have hretry : retryLastMessage jparse ids now nowR oc s
      = sendMessage jparse ids now nowR t oc
          { s with conversations := s.conversations.map (dropErrorsIn aid) } := by
    unfold retryLastMessage
    rw [ha]
    dsimp only
    rw [hfind]
    dsimp only
    rw [if_neg (Nat.not_lt.mpr hlen)]
    rw [hlum]
    dsimp only
    rw [hct]
  rw [hretry]
  rw [sendMessage_active_conversations jparse ids now nowR t oc
    { s with conversations := s.conversations.map (dropErrorsIn aid) } aid ha hload htr]
  rw [List.map_map]
  rw [find?_map_keepId _ (fun c => by
    rw [Function.comp_apply, appendReplyTo_id, appendUserTo_id, dropErrorsIn_id]) aid
    s.conversations]
  rw [hfind]
  have hdrop : dropErrorsIn aid conv
      = { conv with messages := conv.messages.filter (fun m => !m.error) } := by
    unfold dropErrorsIn
    rw [if_pos hcid]
  have huser : appendUserTo aid (userMessage ids.userMsgId now (jsTrim t)) (jsTrim t) now
      { conv with messages := conv.messages.filter (fun m => !m.error) }
      = { conv with
          messages := conv.messages.filter (fun m => !m.error)
            ++ [userMessage ids.userMsgId now (jsTrim t)]
          updatedAt := now } := by
    unfold appendUserTo
    rw [if_pos hcid]
    dsimp only
    rw [if_neg (by rw [hfne]; exact Bool.false_ne_true)]
  have hreply : appendReplyTo aid (outcomeMessage jparse ids.replyMsgId nowR oc) nowR
      { conv with
        messages := conv.messages.filter (fun m => !m.error)
          ++ [userMessage ids.userMsgId now (jsTrim t)]
        updatedAt := now }
      = { conv with
          messages := (conv.messages.filter (fun m => !m.error)
            ++ [userMessage ids.userMsgId now (jsTrim t)])
            ++ [outcomeMessage jparse ids.replyMsgId nowR oc]
          updatedAt := nowR } := by
    unfold appendReplyTo
    rw [if_pos hcid]
  refine ⟨{ conv with
      messages := (conv.messages.filter (fun m => !m.error)
        ++ [userMessage ids.userMsgId now (jsTrim t)])
        ++ [outcomeMessage jparse ids.replyMsgId nowR oc]
      updatedAt := nowR }, ?_, ?_, ?_, outcomeMessage_role jparse ids.replyMsgId nowR oc⟩
  · dsimp only [Option.map, Function.comp]
    rw [hdrop, huser, hreply]
  · dsimp only
    rw [List.append_assoc]
    rfl
  · dsimp only
    rw [List.append_assoc]
    rw [List.countP_append]
    rw [countP_isUser_filter_not_error conv.messages hOk]
    rw [show List.countP Message.isUser
        ([userMessage ids.userMsgId now (jsTrim t)]
          ++ [outcomeMessage jparse ids.replyMsgId nowR oc]) = 1 from by
      rw [List.countP_append]
      simp [List.countP_cons, outcomeMessage_isUser, userMessage_isUser]]

/-- C1 counterexample: on a conversation `[user "hi", error assistant]`
(which ends in an error message and has two messages), retry changes the
user-message count from 1 to 2, contradicting the claim that the count
of user-role messages is unchanged. -/
theorem retry_changes_user_count :
    ((⟨[⟨"c1", "s1", "T",
        [⟨"m1", .user, .str "hi", none, none, "t0", false⟩,
         ⟨"m2", .assistant, .str gatewayErrorText, none, none, "t0", true⟩],
        "t0", "t0"⟩], some "c1", false, ""⟩ : AppState).conversations.map
      (fun c => (c.messages.map Message.error, c.messages.countP Message.isUser))
      = [([false, true], 1)])
    ∧ ((retryLastMessage (fun _ => none) ⟨"nc", "ns", "nf", "um", "am"⟩ "t2" "t3"
        Outcome.failure
        ⟨[⟨"c1", "s1", "T",
          [⟨"m1", .user, .str "hi", none, none, "t0", false⟩,
           ⟨"m2", .assistant, .str gatewayErrorText, none, none, "t0", true⟩],
          "t0", "t0"⟩], some "c1", false, ""⟩).conversations.map
        (fun c => c.messages.countP Message.isUser) = [2]) :=
  ⟨rfl, rfl⟩

/-- C1 witness for the amended statement: retry on the same two-message
state with a failing resubmission leaves the filtered history plus the
resubmitted user message and one new error turn. -/
theorem retry_after_error_witness :
    ∃ conv2,
      (retryLastMessage (fun _ => none) ⟨"nc", "ns", "nf", "um", "am"⟩ "t2" "t3"
        Outcome.failure
        ⟨[⟨"c1", "s1", "T",
          [⟨"m1", .user, .str "hi", none, none, "t0", false⟩,
           ⟨"m2", .assistant, .str gatewayErrorText, none, none, "t0", true⟩],
          "t0", "t0"⟩], some "c1", false, ""⟩).conversations.find?
        (fun c => c.id == "c1") = some conv2
      ∧ conv2.messages =
          [⟨"m1", .user, .str "hi", none, none, "t0", false⟩,
           ⟨"m2", .assistant, .str gatewayErrorText, none, none, "t0", true⟩].filter
            (fun m => !m.error)
          ++ [userMessage "um" "t2" (jsTrim "hi"),
              outcomeMessage (fun _ => none) "am" "t3" Outcome.failure]
      ∧ conv2.messages.countP Message.isUser
          = ([⟨"m1", .user, .str "hi", none, none, "t0", false⟩,
              ⟨"m2", .assistant, .str gatewayErrorText, none, none, "t0", true⟩] : List Message).countP
              Message.isUser + 1
      ∧ (outcomeMessage (fun _ => none) "am" "t3" Outcome.failure).role = Role.assistant :=
  retry_after_error (fun _ => none) ⟨"nc", "ns", "nf", "um", "am"⟩ "t2" "t3"
    Outcome.failure _ "c1"
    ⟨"c1", "s1", "T",
      [⟨"m1", .user, .str "hi", none, none, "t0", false⟩,
       ⟨"m2", .assistant, .str gatewayErrorText, none, none, "t0", true⟩],
      "t0", "t0"⟩
    ⟨"m1", .user, .str "hi", none, none, "t0", false⟩ "hi"
    rfl rfl (by decide)
    ⟨⟨"m2", .assistant, .str gatewayErrorText, none, none, "t0", true⟩, rfl, rfl⟩
    rfl rfl (by decide) rfl
    (by
      intro m hm
      simp only [List.mem_cons, List.not_mem_nil, or_false] at hm
      rcases hm with rfl | rfl
      · intro _; rfl
      · intro h; exact h.symm ▸ rfl)
